import Mathlib

/-!
Formal model of the clack repository (environment.py, cmd_settings.py,
cmd_call.py, clack.py): the in-memory config store, its get/set/save
operations, the config-file migration engine, the placeholder templating
used by batch calls, and the batch-call orchestrator.  Each definition is a
shallow embedding of the corresponding Python function.
-/

namespace Clack

/-- Option data of one config section: an ordered key/value list.  A `none`
value models a key stored without a value, which `RawConfigParser` permits
because `environment.py` constructs it with `allow_no_value=True`. -/
abbrev SecData := List (String × Option String)

/-- The in-memory config store: an ordered list of named sections, as held
by the `ConfigParser.RawConfigParser` instance in `Environment.__init__`. -/
abbrev Store := List (String × SecData)

/-- The user keyring, keyed by (service-section name, login key), as used by
`Environment.get_secret` / `set_secret` / `delete_secret`. -/
abbrev SecretStore := List ((String × String) × String)

/-- Key normalization: `RawConfigParser.optionxform` lowercases option keys
on every get/set/has/remove. -/
def optx (k : String) : String := String.mk (k.toList.map Char.toLower)

/-- First section stored under the given name (`config._sections` lookup). -/
def lookupSec : Store → String → Option SecData
  | [], _ => none
  | (s1, sec) :: rest, s => if s1 = s then some sec else lookupSec rest s

/-- First value stored under the given (already normalized) key. -/
def lookupOpt : SecData → String → Option (Option String)
  | [], _ => none
  | (k1, v) :: rest, k => if k1 = k then some v else lookupOpt rest k

/-- `config.has_section(s)`. -/
def hasSection (st : Store) (s : String) : Bool := (lookupSec st s).isSome


/-- Ordered-dict update: replace the value of an existing key in place,
otherwise append the key at the end (ConfigParser section semantics). -/
def setOptionIn : SecData → String → Option String → SecData
  | [], k, v => [(k, v)]
  | (k1, v1) :: rest, k, v =>
      if k1 = k then (k1, v) :: rest else (k1, v1) :: setOptionIn rest k v

/-- `config.set(s, k, v)` on the first section named `s` (the key passed in
is already normalized by the caller). -/
def configSet : Store → String → String → Option String → Store
  | [], _, _, _ => []
  | (s1, sec) :: rest, s, k, v =>
      if s1 = s then (s1, setOptionIn sec k v) :: rest
      else (s1, sec) :: configSet rest s k v

/-- Delete a key from a section's ordered dict. -/
def removeOptionIn (sec : SecData) (k : String) : SecData :=
  sec.filter (fun q => !decide (q.1 = k))

/-- `config.remove_option(s, k)` on the first section named `s`. -/
def removeOption : Store → String → String → Store
  | [], _, _ => []
  | (s1, sec) :: rest, s, k =>
      if s1 = s then (s1, removeOptionIn sec k) :: rest
      else (s1, sec) :: removeOption rest s k

/-- `config.remove_section(s)`: delete the (unique) section named `s`. -/
def removeSection (st : Store) (s : String) : Store :=
  st.filter (fun p => !decide (p.1 = s))

/-- The value stored for `(section, key)`: `some v` when the section and
option both exist (`v` itself is `none` for a bare key), `none` otherwise. -/
def storedOpt (st : Store) (s k : String) : Option (Option String) :=
  (lookupSec st s).bind (fun sec => lookupOpt sec (optx k))

/-- `Environment.get(section, key, fallback)` (environment.py lines
203-209): the stored value when section and option exist, else the
fallback.  Note that the stored value of a bare key is `None`, which this
method returns in place of the fallback. -/
def envGet (st : Store) (s k : String) (fb : Option String) : Option String :=
  (storedOpt st s k).getD fb

/-- `config.has_option(s, k)` (key is normalized, per ConfigParser). -/
def hasOption (st : Store) (s k : String) : Bool :=
  (storedOpt st s k).isSome

/-- `Environment.set(section, key, value)` (environment.py lines 211-218):
a `None` value removes the key when `self.get(section, key)` is not `None`;
otherwise the section is created on demand and the key upserted. -/
def envSet (st : Store) (s k : String) (v : Option String) : Store :=
  match v with
  | none =>
      if (envGet st s k none).isSome then removeOption st s (optx k) else st
  | some v0 =>
      configSet (if hasSection st s then st else st ++ [(s, [])]) s (optx k) (some v0)

/-- `Environment.sections` (environment.py lines 143-146): every section
name except the reserved `etc`. -/
def profileSections (st : Store) : List String :=
  (st.map Prod.fst).filter (fun s => !decide (s = "etc"))

/-- `Environment.default` (environment.py lines 135-140): the `etc/env`
value, falling back to the legacy `etc/default` value, falling back to the
first non-`etc` section, falling back to `None`. -/
def defaultProfile (st : Store) : Option String :=
  envGet st "etc" "env" (envGet st "etc" "default" ((profileSections st).head?))

/-- `keyring.get_password` on the model keyring. -/
def getSecret : SecretStore → String → String → Option String
  | [], _, _ => none
  | (p, v) :: rest, n, k => if p = (n, k) then some v else getSecret rest n k

/-- `Environment.set_secret` / `keyring.set_password`: upsert. -/
def setSecret : SecretStore → String → String → String → SecretStore
  | [], n, k, v => [((n, k), v)]
  | (p, v1) :: rest, n, k, v =>
      if p = (n, k) then (p, v) :: rest else (p, v1) :: setSecret rest n k v

/-- `Environment.delete_secret(..., fail_silent=True)`: delete the entry if
present, swallow the not-found error otherwise. -/
def deleteSecretSilent (ss : SecretStore) (n k : String) : SecretStore :=
  ss.filter (fun p => !decide (p.1 = (n, k)))

/-- `Environment.delete_secret(..., fail_silent=False)`: `keyring`
raises `PasswordDeleteError` when no such secret exists; modelled as
`none`. -/
def deleteSecretStrict (ss : SecretStore) (n k : String) : Option SecretStore :=
  if (getSecret ss n k).isSome then some (deleteSecretSilent ss n k) else none

/-! Basic lemmas about the store operations. -/

theorem lookupOpt_setOptionIn_self (sec : SecData) (k : String) (v : Option String) :
    lookupOpt (setOptionIn sec k v) k = some v := by
  induction sec with
  | nil => simp [setOptionIn, lookupOpt]
  | cons hd t ih =>
      obtain ⟨k1, v1⟩ := hd
      by_cases hk : k1 = k
      · subst hk; simp [setOptionIn, lookupOpt]
      · simp [setOptionIn, lookupOpt, hk, ih]

theorem lookupOpt_setOptionIn_ne (sec : SecData) (k k1 : String) (v : Option String)
    (h : k1 ≠ k) : lookupOpt (setOptionIn sec k v) k1 = lookupOpt sec k1 := by
  induction sec with
  | nil => simp [setOptionIn, lookupOpt, Ne.symm h]
  | cons hd t ih =>
      obtain ⟨k2, v2⟩ := hd
      by_cases hk : k2 = k
      · subst hk
        have hne : ¬ (k2 = k1) := fun hh => h hh.symm
        simp [setOptionIn, lookupOpt, hne]
      · simp [setOptionIn, lookupOpt, hk, ih]

theorem lookupSec_configSet (st : Store) (s k : String) (v : Option String)
    (sec : SecData) (hs : lookupSec st s = some sec) :
    lookupSec (configSet st s k v) s = some (setOptionIn sec k v) := by
  induction st with
  | nil => simp [lookupSec] at hs
  | cons hd t ih =>
      obtain ⟨s1, sec1⟩ := hd
      by_cases h1 : s1 = s
      · subst h1
        simp [lookupSec] at hs
        subst hs
        simp [configSet, lookupSec]
      · simp [lookupSec, h1] at hs
        simp [configSet, lookupSec, h1, ih hs]

theorem lookupSec_append_right (st : Store) (l : Store) (s : String)
    (h : lookupSec st s = none) : lookupSec (st ++ l) s = lookupSec l s := by
  induction st with
  | nil => simp
  | cons hd t ih =>
      obtain ⟨s1, sec1⟩ := hd
      by_cases h1 : s1 = s
      · simp [lookupSec, h1] at h
      · simp [lookupSec, h1] at h ⊢
        exact ih h

theorem configSet_append_new (st : Store) (s k : String) (v : Option String)
    (sec0 : SecData) (h : lookupSec st s = none) :
    configSet (st ++ [(s, sec0)]) s k v = st ++ [(s, setOptionIn sec0 k v)] := by
  induction st with
  | nil => simp [configSet]
  | cons hd t ih =>
      obtain ⟨s1, sec1⟩ := hd
      by_cases h1 : s1 = s
      · simp [lookupSec, h1] at h
      · simp [lookupSec, h1] at h
        simp [configSet, h1, ih h]

theorem hasSection_false_lookup (st : Store) (s : String)
    (h : hasSection st s = false) : lookupSec st s = none := by
  unfold hasSection at h
  cases hl : lookupSec st s with
  | none => rfl
  | some sec => rw [hl] at h; simp at h

theorem hasSection_true_lookup (st : Store) (s : String)
    (h : hasSection st s = true) : ∃ sec, lookupSec st s = some sec := by
  unfold hasSection at h
  cases hl : lookupSec st s with
  | none => rw [hl] at h; simp at h
  | some sec => exact ⟨sec, rfl⟩

/-- The stored entry after `set(s, k, v)` with a real value. -/
theorem storedOpt_envSet_same (st : Store) (s k : String) (v : String) :
    storedOpt (envSet st s k (some v)) s k = some (some v) := by
  simp only [envSet]
  by_cases hs : hasSection st s
  · obtain ⟨sec, hsec⟩ := hasSection_true_lookup st s hs
    rw [if_pos hs]
    unfold storedOpt
    rw [lookupSec_configSet st s (optx k) (some v) sec hsec]
    simp [lookupOpt_setOptionIn_self]
  · have hnone := hasSection_false_lookup st s (by simpa using hs)
    rw [if_neg hs, configSet_append_new st s (optx k) (some v) [] hnone]
    unfold storedOpt
    rw [lookupSec_append_right st _ s hnone]
    simp [lookupSec, setOptionIn, lookupOpt]

/-- After `set(s, k, v)` with a real value, `get(s, k, fb)` returns that
value, for any fallback. -/
theorem envGet_envSet_same (st : Store) (s k : String) (v : String) (fb : Option String) :
    envGet (envSet st s k (some v)) s k fb = some v := by
  unfold envGet
  rw [storedOpt_envSet_same]
  rfl

/-- `set(s, k, v)` with a real value leaves the stored entry of any other
key of that section unchanged. -/
theorem storedOpt_envSet_ne (st : Store) (s k k1 : String) (v : String)
    (h : optx k1 ≠ optx k) :
    storedOpt (envSet st s k (some v)) s k1 = storedOpt st s k1 := by
  simp only [envSet]
  by_cases hs : hasSection st s
  · obtain ⟨sec, hsec⟩ := hasSection_true_lookup st s hs
    rw [if_pos hs]
    unfold storedOpt
    rw [lookupSec_configSet st s (optx k) (some v) sec hsec, hsec]
    simp [lookupOpt_setOptionIn_ne sec (optx k) (optx k1) (some v) h]
  · have hnone := hasSection_false_lookup st s (by simpa using hs)
    rw [if_neg hs, configSet_append_new st s (optx k) (some v) [] hnone]
    unfold storedOpt
    rw [lookupSec_append_right st _ s hnone, hnone]
    simp [lookupSec, setOptionIn, lookupOpt, Ne.symm h]

/-- `set(s, k, v)` does not change `get` for a different key of the same
section. -/
theorem envGet_envSet_ne (st : Store) (s k k1 : String) (v : String) (fb : Option String)
    (h : optx k1 ≠ optx k) :
    envGet (envSet st s k (some v)) s k1 fb = envGet st s k1 fb := by
  unfold envGet
  rw [storedOpt_envSet_ne st s k k1 v h]

/-- When the option is absent, `get` returns the fallback. -/
theorem envGet_of_hasOption_false (st : Store) (s k : String) (fb : Option String)
    (h : hasOption st s k = false) : envGet st s k fb = fb := by
  unfold hasOption at h
  unfold envGet
  cases ho : storedOpt st s k with
  | none => rfl
  | some w => rw [ho] at h; simp at h

/-- A `get` that succeeds with fallback `none` holds a stored string. -/
theorem envGet_none_some (st : Store) (s k : String) (v : String)
    (h : envGet st s k none = some v) : storedOpt st s k = some (some v) := by
  unfold envGet at h
  cases ho : storedOpt st s k with
  | none => rw [ho] at h; exact absurd h (by simp)
  | some w => rw [ho] at h; simp at h; rw [h]

/-- A `get` that succeeds with fallback `none` succeeds with any fallback. -/
theorem envGet_stable (st : Store) (s k : String) (v : String) (fb : Option String)
    (h : envGet st s k none = some v) : envGet st s k fb = some v := by
  unfold envGet
  rw [envGet_none_some st s k v h]
  rfl

theorem lookupOpt_removeOptionIn (sec : SecData) (k : String) :
    lookupOpt (removeOptionIn sec k) k = none := by
  induction sec with
  | nil => simp [removeOptionIn, lookupOpt]
  | cons hd t ih =>
      obtain ⟨k1, v1⟩ := hd
      by_cases hk : k1 = k
      · subst hk; simpa [removeOptionIn, lookupOpt] using ih
      · simpa [removeOptionIn, lookupOpt, hk] using ih

theorem lookupSec_removeOption (st : Store) (s k : String) (sec : SecData)
    (hs : lookupSec st s = some sec) :
    lookupSec (removeOption st s k) s = some (removeOptionIn sec k) := by
  induction st with
  | nil => simp [lookupSec] at hs
  | cons hd t ih =>
      obtain ⟨s1, sec1⟩ := hd
      by_cases h1 : s1 = s
      · subst h1
        simp [lookupSec] at hs
        subst hs
        simp [removeOption, lookupSec]
      · simp [lookupSec, h1] at hs
        simp [removeOption, lookupSec, h1, ih hs]

theorem lookupSec_removeSection_ne (st : Store) (s t : String) (h : s ≠ t) :
    lookupSec (removeSection st t) s = lookupSec st s := by
  induction st with
  | nil => simp [removeSection]
  | cons hd tl ih =>
      obtain ⟨s1, sec1⟩ := hd
      by_cases h1 : s1 = t
      · subst h1
        have hs1 : ¬ (s1 = s) := fun hh => h hh.symm
        simp only [removeSection, List.filter_cons] at ih ⊢
        simpa [lookupSec, hs1] using ih
      · by_cases h2 : s1 = s
        · subst h2
          simp [removeSection, lookupSec, List.filter_cons, h]
        · simp only [removeSection, List.filter_cons] at ih ⊢
          simpa [lookupSec, h1, h2] using ih

theorem hasSection_removeSection_self (st : Store) (s : String) :
    hasSection (removeSection st s) s = false := by
  induction st with
  | nil => simp [removeSection, hasSection, lookupSec]
  | cons hd tl ih =>
      obtain ⟨s1, sec1⟩ := hd
      by_cases h1 : s1 = s
      · simpa [removeSection, hasSection, lookupSec, h1] using ih
      · simpa [removeSection, hasSection, lookupSec, h1] using ih

theorem getSecret_deleteSecretSilent (ss : SecretStore) (n k : String) :
    getSecret (deleteSecretSilent ss n k) n k = none := by
  induction ss with
  | nil => simp [deleteSecretSilent, getSecret]
  | cons hd t ih =>
      obtain ⟨p, v⟩ := hd
      by_cases hp : p = (n, k)
      · simpa [deleteSecretSilent, getSecret, hp] using ih
      · simpa [deleteSecretSilent, getSecret, hp] using ih

theorem storedOpt_removeOption (st : Store) (s k : String) (sec : SecData)
    (hs : lookupSec st s = some sec) :
    storedOpt (removeOption st s (optx k)) s k = none := by
  unfold storedOpt
  rw [lookupSec_removeOption st s (optx k) sec hs]
  simp [lookupOpt_removeOptionIn]

/-! Claims about `Environment.set` / `Environment.get` /
`Environment.default`. -/

/-- C10: calling `set(section, key, None)` when `get(section, key)` already
yields no value leaves the in-memory store completely unchanged: no section
is created and no key is added or modified (environment.py lines 211-215:
the `value is None` branch returns without touching the store). -/
theorem claim10_set_absent_noop (st : Store) (s k : String)
    (h : envGet st s k none = none) : envSet st s k none = st := by
  simp [envSet, h]

/-- Witness for C10 at a concrete store. -/
theorem claim10_witness :
    envSet [("etc", [("env", some "a")])] "etc" "output" none
      = [("etc", [("env", some "a")])] :=
  claim10_set_absent_noop [("etc", [("env", some "a")])] "etc" "output" (by decide)

/-- C9 (amended): after `set(section, key, None)`, `get(section, key, d)`
returns the caller-supplied default and the key is gone — provided the key
was absent or held a real string value.  (A key stored with *no* value,
which `allow_no_value=True` permits, is left in place because the
`self.get(section, key) is not None` guard skips the removal; see the
counterexample.) -/
theorem claim9_set_absent_removes (st : Store) (s k d : String)
    (hbare : envGet st s k none = none → hasOption st s k = false) :
    hasOption (envSet st s k none) s k = false ∧
    envGet (envSet st s k none) s k (some d) = some d := by
  cases hv : envGet st s k none with
  | none =>
      have hopt := hbare hv
      constructor
      · simpa [envSet, hv] using hopt
      · simp only [envSet, hv, Option.isSome_none, Bool.false_eq_true, if_false]
        exact envGet_of_hasOption_false st s k (some d) hopt
  | some v =>
      have hstored := envGet_none_some st s k v hv
      obtain ⟨sec, hsec⟩ : ∃ sec, lookupSec st s = some sec := by
        unfold storedOpt at hstored
        cases hl : lookupSec st s with
        | none => rw [hl] at hstored; simp at hstored
        | some sec => exact ⟨sec, rfl⟩
      have hrm : storedOpt (removeOption st s (optx k)) s k = none :=
        storedOpt_removeOption st s k sec hsec
      constructor
      · simp [envSet, envGet, hasOption, hstored, hrm]
      · simp [envSet, envGet, hstored, hrm]

/-- Witness for C9 (amended) at a concrete store. -/
theorem claim9_witness :
    hasOption (envSet [("s", [("k", some "v")])] "s" "k" none) "s" "k" = false ∧
    envGet (envSet [("s", [("k", some "v")])] "s" "k" none) "s" "k" (some "d") = some "d" :=
  claim9_set_absent_removes [("s", [("k", some "v")])] "s" "k" "d" (by decide)

/-- C9 counterexample: a key stored with no value (a bare key, which the
store permits because of `allow_no_value=True`): `set(s, k, None)` leaves
the key in place — `self.get(section, key)` returns `None`, so the
`remove_option` call is skipped — and `get(s, k, "d")` then returns the
stored no-value marker `None`, not the caller-supplied default. -/
theorem claim9_counterexample :
    envSet [("s", [("k", none)])] "s" "k" none = [("s", [("k", none)])] ∧
    hasOption [("s", [("k", none)])] "s" "k" = true ∧
    envGet [("s", [("k", none)])] "s" "k" (some "d") = none := by decide

/-- C8 (amended): `Environment.default` returns the stored `etc/env`
pointer verbatim, without validating that the named profile exists; the
fallback to the first remaining profile (or none) applies only when neither
the `env` pointer nor the legacy `default` pointer is stored. -/
theorem claim8_default_pointer (st : Store) :
    (∀ v, envGet st "etc" "env" none = some v → defaultProfile st = some v) ∧
    (hasOption st "etc" "env" = false → hasOption st "etc" "default" = false →
      defaultProfile st = (profileSections st).head?) := by
  constructor
  · intro v hv
    exact envGet_stable st "etc" "env" v _ hv
  · intro h1 h2
    unfold defaultProfile
    rw [envGet_of_hasOption_false st "etc" "env" _ h1,
        envGet_of_hasOption_false st "etc" "default" _ h2]

/-- Witness for C8 (amended): a stored pointer is returned verbatim, and
with no pointer stored the first profile is returned. -/
theorem claim8_witness :
    defaultProfile [("etc", [("env", some "g")])] = some "g" ∧
    defaultProfile [("a", [("key", some "k")]), ("b", [])] = some "a" := by
  constructor
  · exact (claim8_default_pointer [("etc", [("env", some "g")])]).1 "g" (by decide)
  · have h := (claim8_default_pointer [("a", [("key", some "k")]), ("b", [])]).2
      (by decide) (by decide)
    rw [h]; decide

/-- C8 counterexample: the env pointer names the nonexistent profile
`ghost` while profile `a` exists; `Environment.default` returns `ghost`
instead of falling back to `a`, so a nonexistent profile name *is*
returned as the default. -/
theorem claim8_counterexample :
    defaultProfile [("a", []), ("etc", [("env", some "ghost")])] = some "ghost" ∧
    ¬ ("ghost" ∈ profileSections [("a", []), ("etc", [("env", some "ghost")])]) ∧
    some "ghost" ≠ some "a" := by decide

/-! The placeholder templating used by batch calls. -/

/-- A word character for the `\\w+` placeholder-name pattern: ASCII
alphanumeric or underscore (python 2 `re` without the unicode flag). -/
def isWordChar (c : Char) : Bool := c.isAlphanum || c = '_'

/-- Scanner for `re.findall` with pattern `(<<(\\w+)>>)` as used at
cmd_call.py lines 157/161 and clack.py line 435: the (full placeholder,
name) pairs of the non-overlapping left-to-right matches.  The fuel
argument (instantiated with the input length) bounds the recursion; every
step consumes at least one character. -/
def scanPH : Nat → List Char → List (String × String)
  | 0, _ => []
  | _, [] => []
  | fuel + 1, c :: cs =>
      match c, cs with
      | '<', '<' :: rest =>
          (let w := rest.takeWhile isWordChar
           if w = [] then scanPH fuel cs
           else
             match rest.drop w.length with
             | '>' :: '>' :: rest2 =>
                 (String.mk ('<' :: '<' :: (w ++ ['>', '>'])), String.mk w)
                   :: scanPH fuel rest2
             | _ => scanPH fuel cs)
      | _, _ => scanPH fuel cs

/-- All `<<name>>` placeholders of a template, in order. -/
def findPlaceholders (s : String) : List (String × String) :=
  scanPH s.length s.toList

/-- Helper for python `str.replace`: replace the non-overlapping
occurrences of `pat` left to right.  Fuel is instantiated with the input
length; each step consumes at least one character when `pat` is
nonempty. -/
def replAux : Nat → List Char → List Char → List Char → List Char
  | 0, s, _, _ => s
  | _, [], _, _ => []
  | fuel + 1, c :: cs, pat, rep =>
      if pat.isPrefixOf (c :: cs) then
        rep ++ replAux fuel ((c :: cs).drop pat.length) pat rep
      else c :: replAux fuel cs pat rep

/-- Python `str.replace(pat, rep)`.  The empty-pattern guard is never hit
by the callers modelled here: every pattern is a `<<name>>` placeholder. -/
def pyReplace (s pat rep : String) : String :=
  if pat.toList = [] then s
  else String.mk (replAux s.toList.length s.toList pat.toList rep.toList)

/-- Python dict update `d[k] = v` on an ordered assoc list. -/
def dictInsert : List (String × String) → String → String → List (String × String)
  | [], k, v => [(k, v)]
  | (k1, v1) :: rest, k, v =>
      if k1 = k then (k1, v) :: rest else (k1, v1) :: dictInsert rest k v

/-- Python `d.get(k)` (returning `None` when missing). -/
def dictGet : List (String × String) → String → Option String
  | [], _ => none
  | (k1, v1) :: rest, k => if k1 = k then some v1 else dictGet rest k

/-- The per-row mapping built at cmd_call.py lines 153-155 (and clack.py
lines 443-445): `values[header_row[i]] = val` for every cell.  A row
longer than the header raises IndexError, modelled as `none`. -/
def buildValues (header row : List String) : Option (List (String × String)) :=
  if row.length ≤ header.length then
    some ((List.zip header row).foldl (fun d p => dictInsert d p.1 p.2) [])
  else none

/-- Parameter templating of cmd_call.py lines 156-158.  Each loop
iteration evaluates `params_str.replace(search_for, values.get(name))`:
it replaces in the ORIGINAL template, so only the last iteration's result
survives, and a missing mapping entry passes `None` to `str.replace`,
which raises TypeError (modelled as `none`). -/
def cmdTemplate (tmpl : String) (vals : List (String × String)) : Option String :=
  (findPlaceholders tmpl).foldl
    (fun acc p =>
      acc.bind (fun _ => (dictGet vals p.2).map (fun v => pyReplace tmpl p.1 v)))
    (some tmpl)

/-- Endpoint templating of cmd_call.py lines 160-162: same shape, with
`.strip('/ ')` applied to each iteration's result. -/
def stripSlashSpace (s : String) : String :=
  String.mk
    (((s.toList.dropWhile (fun c => c = '/' || c = ' ')).reverse.dropWhile
        (fun c => c = '/' || c = ' ')).reverse)

def cmdTemplateEp (ep : String) (vals : List (String × String)) : Option String :=
  (findPlaceholders ep).foldl
    (fun acc p =>
      acc.bind (fun _ =>
        (dictGet vals p.2).map (fun v => stripSlashSpace (pyReplace ep p.1 v))))
    (some ep)

/-- Legacy batch templating of clack.py lines 435 and 442-449: the
replacements accumulate into `prms`, and a placeholder whose mapping entry
is missing — or falsy, i.e. the empty string (`values.get(name, False)`)
— is skipped and therefore left verbatim. -/
def batchTemplate (tmpl : String) (vals : List (String × String)) : String :=
  (findPlaceholders tmpl).foldl
    (fun prms p =>
      match dictGet vals p.2 with
      | some v => if v = "" then prms else pyReplace prms p.1 v
      | none => prms)
    tmpl

/-- C1 (code bug): with row mapping id=7, name=x, the batch templating of
cmd_call.py produces `<<id>>-x` — each iteration restarts from the
original `params_str`, so only the last placeholder is substituted — while
the claim (and the legacy clack.py `batch`, which accumulates into `prms`)
requires `7-x`. -/
theorem claim1_templating_last_only :
    cmdTemplate "<<id>>-<<name>>" [("id", "7"), ("name", "x")] = some "<<id>>-x" ∧
    batchTemplate "<<id>>-<<name>>" [("id", "7"), ("name", "x")] = "7-x" := by
  decide

/-- C3 (code bug): a placeholder with no mapping entry makes
cmd_call.py's templating raise TypeError — `values.get(name)` is `None`
and `str.replace` rejects it — (modelled as `none`), while the claim (and
the legacy clack.py `batch`) leaves the placeholder verbatim without
error. -/
theorem claim3_missing_placeholder :
    cmdTemplate "<<missing>>" [] = none ∧
    batchTemplate "<<missing>>" [] = "<<missing>>" := by
  decide

/-! The batch-call orchestrator of cmd_call.py lines 143-164. -/

/-- Outcome of running (part of) a command: a normal value, a fatal
`env.abort` (which prints and calls `sys.exit(1)`), or an unhandled
python exception. -/
inductive RunResult (α : Type) where
  | ok : α → RunResult α
  | aborted : RunResult α
  | exn : RunResult α
deriving DecidableEq

/-- One data row of the batch loop (cmd_call.py lines 149-163): build the
header→cell mapping, template the parameter expression, parse it via
`_parse_params` — which calls `env.abort` on any string that does not
parse to a mapping (lines 95-111) — template the endpoint, and record
`(columns[0], success)`.  The literal-expression parser
(`ast.literal_eval` plus the dict check) is passed in as `parse`; the
backend call (returning the batch success boolean) as `call`. -/
def callRow (parse : String → Option (List (String × String)))
    (call : String → List (String × String) → Bool)
    (endpoint params_str : String) (header row : List String) :
    RunResult (String × Bool) :=
  match buildValues header row with
  | none => RunResult.exn
  | some values =>
      match cmdTemplate params_str values with
      | none => RunResult.exn
      | some cp =>
          match parse cp with
          | none => RunResult.aborted
          | some prms =>
              match cmdTemplateEp endpoint values with
              | none => RunResult.exn
              | some ce =>
                  match row with
                  | [] => RunResult.exn
                  | r0 :: _ => RunResult.ok (r0, call ce prms)

/-- The batch loop over the data rows, accumulating the
`(row identifier, success)` results; an abort or exception ends the whole
process, so no result list is ever produced for it. -/
def batchCall (parse : String → Option (List (String × String)))
    (call : String → List (String × String) → Bool)
    (endpoint params_str : String) (header : List String) :
    List (List String) → RunResult (List (String × Bool))
  | [] => RunResult.ok []
  | row :: rest =>
      match callRow parse call endpoint params_str header row with
      | RunResult.ok r =>
          match batchCall parse call endpoint params_str header rest with
          | RunResult.ok rs => RunResult.ok (r :: rs)
          | RunResult.aborted => RunResult.aborted
          | RunResult.exn => RunResult.exn
      | RunResult.aborted => RunResult.aborted
      | RunResult.exn => RunResult.exn

/-- A parse outcome standing for `_parse_params` on a templated expression
that `ast.literal_eval` does not turn into a dict (e.g. the string
`[1]`, which evaluates to a list, failing the `isinstance(params, dict)`
check). -/
def parseFail : String → Option (List (String × String)) := fun _ => none

/-- A backend call whose batch-mode result is success. -/
def callOk : String → List (String × String) → Bool := fun _ _ => true

/-- C2 (amended): a data row whose templated parameter expression fails to
parse into a mapping makes `_parse_params` call `env.abort`, terminating
the entire process: the batch run yields `aborted`, the row is never
recorded as `(row_identifier, false)`, and later rows are not processed.
(Hypotheses: the offending row is in the batch and no row's templating
itself raises.) -/
theorem claim2_malformed_row_aborts
    (parse : String → Option (List (String × String)))
    (call : String → List (String × String) → Bool)
    (endpoint params_str : String) (header : List String)
    (rows : List (List String)) (row : List String)
    (values : List (String × String)) (cp : String)
    (hmem : row ∈ rows)
    (hnoexn : ∀ r ∈ rows,
      callRow parse call endpoint params_str header r ≠ RunResult.exn)
    (hv : buildValues header row = some values)
    (ht : cmdTemplate params_str values = some cp)
    (hp : parse cp = none) :
    batchCall parse call endpoint params_str header rows = RunResult.aborted := by
  have habort : callRow parse call endpoint params_str header row
      = RunResult.aborted := by
    simp [callRow, hv, ht, hp]
  induction rows with
  | nil => cases hmem
  | cons r rs ih =>
      rcases List.mem_cons.mp hmem with hEq | hmem2
      · subst hEq
        unfold batchCall
        rw [habort]
      · have hnr := hnoexn r (List.mem_cons_self r rs)
        unfold batchCall
        cases hc : callRow parse call endpoint params_str header r with
        | ok p =>
            have hrest := ih hmem2
              (fun r2 h2 => hnoexn r2 (List.mem_cons_of_mem r h2))
            rw [hrest]
        | aborted => rfl
        | exn => exact absurd hc hnr

/-- Witness for C2 (amended) at a concrete batch. -/
theorem claim2_witness :
    batchCall parseFail callOk "v2/media" "[1]" ["id"] [["1"]]
      = RunResult.aborted :=
  claim2_malformed_row_aborts parseFail callOk "v2/media" "[1]" ["id"]
    [["1"]] ["1"] [("id", "1")] "[1]"
    (by decide) (by decide) (by decide) (by decide) (by decide)

/-- C2 counterexample: a single-row batch whose parameter expression
parses to a non-mapping aborts the whole process instead of producing the
result list `[("1", false)]` that the claim requires. -/
theorem claim2_counterexample :
    batchCall parseFail callOk "v2/media" "[1]" ["id"] [["1"]]
      = RunResult.aborted ∧
    batchCall parseFail callOk "v2/media" "[1]" ["id"] [["1"]]
      ≠ RunResult.ok [("1", false)] := by
  constructor
  · decide
  · decide

/-! `Environment.save` (environment.py lines 220-224) as a sequence of
file-system operations. -/

/-- The durable store's file name (`Environment.config_path` joins a
per-user application directory, which is environment dependent, with the
fixed name `config.ini`). -/
def configPath : String := "config.ini"

/-- File-system operations: `open(path, 'wb')` truncates the file;
a write appends to the current (truncated) content; a rename replaces the
destination with the source.  `save` uses no rename — the constructor is
present so the claim about temp-file-then-move saving is statable. -/
inductive FSOp where
  | openTrunc : String → FSOp
  | writeAll : String → String → FSOp
  | rename : String → String → FSOp
deriving DecidableEq

/-- A file system: content by path. -/
abbrev FS := String → Option String

def applyOp (fs : FS) : FSOp → FS
  | FSOp.openTrunc p => fun q => if q = p then some "" else fs q
  | FSOp.writeAll p c => fun q => if q = p then some (((fs p).getD "") ++ c) else fs q
  | FSOp.rename src dst =>
      fun q => if q = dst then fs src else if q = src then none else fs q

def runOps (ops : List FSOp) (fs : FS) : FS := ops.foldl applyOp fs

/-- One line of `RawConfigParser.write`: `key = value` (newlines in the
value continued with a tab), or the bare key when the value is `None`. -/
def serializeOptionLine : String × Option String → String
  | (k, some v) => k ++ " = " ++ pyReplace v "\n" "\n\t" ++ "\n"
  | (k, none) => k ++ "\n"

/-- `RawConfigParser.write`: every section as `[name]`, its options, and a
blank line. -/
def writeStore (st : Store) : String :=
  st.foldl
    (fun acc sec =>
      acc ++ "[" ++ sec.1 ++ "]\n"
        ++ sec.2.foldl (fun a kv => a ++ serializeOptionLine kv) "" ++ "\n")
    ""

/-- `Environment.save`: `open(config_path, 'wb')` — which truncates the
durable file in place — followed by writing the serialized store.  No
temporary file and no rename/replace is involved. -/
def saveOps (st : Store) : List FSOp :=
  [FSOp.openTrunc configPath, FSOp.writeAll configPath (writeStore st)]

theorem str_empty_append (s : String) : "" ++ s = s := by
  cases s
  rfl

/-- C4 (amended): `save()` writes the serialized store directly to the
durable path — a completed save stores exactly the serialization, but the
save is NOT atomic: it opens the durable file with truncation in place, so
an interruption between the truncating open and the completed write leaves
the store empty (corrupt), not in its last fully saved state; no write to
a temporary location and no move/replace happens. -/
theorem claim4_save_not_atomic (st : Store) (fs : FS) :
    runOps (saveOps st) fs configPath = some (writeStore st) ∧
    runOps ((saveOps st).take 1) fs configPath = some "" ∧
    ∀ src dst, FSOp.rename src dst ∉ saveOps st := by
  refine ⟨?_, ?_, ?_⟩
  · simp [runOps, saveOps, applyOp, str_empty_append]
  · simp [runOps, saveOps, applyOp]
  · intro src dst
    simp [saveOps]

/-- C4 counterexample: a store whose durable file holds the last saved
state; interrupting `save()` right after the truncating open leaves the
durable file empty — neither the old content nor the new serialization —
so an interrupted save DOES corrupt the store. -/
theorem claim4_counterexample :
    runOps ((saveOps [("a", [("key", some "k")])]).take 1)
        (fun p => if p = configPath then some "[a]\nkey = old\n\n" else none)
        configPath = some "" ∧
    some "" ≠ some "[a]\nkey = old\n\n" ∧
    writeStore [("a", [("key", some "k")])] = "[a]\nkey = k\n\n" ∧
    some "" ≠ some (writeStore [("a", [("key", some "k")])]) := by
  refine ⟨by decide, by decide, by decide, by decide⟩

/-! `SettingsCommands.remove` (cmd_settings.py lines 50-63). -/

/-- The remove command after the user confirmed: `_get_and_check_name`
aborts when no section of that name exists (modelled `none`); otherwise
the profile's secret is deleted from the keyring when a login key is
stored (silently ignoring a missing secret), and the section is removed
and the store saved. -/
instance : DecidableEq (Store × SecretStore) := instDecidableEqProd

def removeProfile (st : Store) (ss : SecretStore) (name : String) :
    Option (Store × SecretStore) :=
  if hasSection st name then
    some (removeSection st name,
      match envGet st name "key" none with
      | some k => deleteSecretSilent ss name k
      | none => ss)
  else none

/-- C5 (amended): removing a stored profile deletes the secret kept under
the profile's stored login key and deletes the profile's section, but it
does NOT touch the default-profile pointer: `etc/env` is left unchanged
even when it points at the removed profile, leaving a dangling pointer. -/
theorem claim5_remove_keeps_pointer (st : Store) (ss : SecretStore) (name : String)
    (hs : hasSection st name = true) (hne : name ≠ "etc") :
    ∀ st2 ss2, removeProfile st ss name = some (st2, ss2) →
      hasSection st2 name = false ∧
      storedOpt st2 "etc" "env" = storedOpt st "etc" "env" ∧
      (∀ k, envGet st name "key" none = some k → getSecret ss2 name k = none) := by
  intro st2 ss2 hrun
  unfold removeProfile at hrun
  rw [if_pos hs] at hrun
  have hst2 : st2 = removeSection st name := by
    injection hrun with h1
    exact (congrArg Prod.fst h1).symm
  have hss2 : ss2 = (match envGet st name "key" none with
      | some k => deleteSecretSilent ss name k
      | none => ss) := by
    injection hrun with h1
    exact (congrArg Prod.snd h1).symm
  subst hst2
  refine ⟨hasSection_removeSection_self st name, ?_, ?_⟩
  · unfold storedOpt
    rw [lookupSec_removeSection_ne st "etc" name (fun hh => hne hh.symm)]
  · intro k hk
    rw [hk] at hss2
    subst hss2
    exact getSecret_deleteSecretSilent ss name k

/-- Witness for C5 (amended) at a concrete store, ending with the removed
profile's secret gone from the keyring. -/
theorem claim5_witness :
    hasSection (removeSection [("a", [("key", some "k")]),
        ("etc", [("env", some "a")])] "a") "a" = false ∧
    getSecret (deleteSecretSilent [(("a", "k"), "s")] "a" "k") "a" "k" = none := by
  have h := claim5_remove_keeps_pointer
    [("a", [("key", some "k")]), ("etc", [("env", some "a")])]
    [(("a", "k"), "s")] "a" (by decide) (by decide)
    (removeSection [("a", [("key", some "k")]), ("etc", [("env", some "a")])] "a")
    (deleteSecretSilent [(("a", "k"), "s")] "a" "k")
    (by decide)
  exact ⟨h.1, h.2.2 "k" (by decide)⟩

/-- C5 counterexample: profile `a` is the stored default (`etc/env` is
`a`); after `remove`, the section is gone but `etc/env` still holds `a` —
the default-profile pointer is not cleared, contradicting the claim. -/
theorem claim5_counterexample :
    removeProfile [("a", [("key", some "k")]), ("etc", [("env", some "a")])]
        [(("a", "k"), "s")] "a"
      = some ([("etc", [("env", some "a")])], []) ∧
    envGet [("etc", [("env", some "a")])] "etc" "env" none = some "a" ∧
    hasSection [("etc", [("env", some "a")])] "a" = false := by
  refine ⟨by decide, by decide, by decide⟩

/-! The config-file migration engine
(`Environment.check_and_upgrade_config`, environment.py lines 148-193). -/

/-- A parsed `distutils` StrictVersion: major.minor[.patch] with an
optional prerelease `a`/`b` tag (the Bool is true for `b`). -/
structure SVersion where
  major : Nat
  minor : Nat
  patch : Nat
  pre : Option (Bool × Nat)
deriving DecidableEq

/-- StrictVersion ordering: lexicographic on the numeric triple; on a tie
a prerelease sorts below the release, `a` below `b`, then by number. -/
def vlt (v w : SVersion) : Bool :=
  match compare v.major w.major with
  | Ordering.lt => true
  | Ordering.gt => false
  | Ordering.eq =>
      match compare v.minor w.minor with
      | Ordering.lt => true
      | Ordering.gt => false
      | Ordering.eq =>
          match compare v.patch w.patch with
          | Ordering.lt => true
          | Ordering.gt => false
          | Ordering.eq =>
              match v.pre, w.pre with
              | none, _ => false
              | some _, none => true
              | some (b1, n1), some (b2, n2) =>
                  if b1 = b2 then decide (n1 < n2) else b2

/-- Leading decimal digits of a character list, and the rest. -/
def takeDigits (l : List Char) : List Char × List Char :=
  (l.takeWhile Char.isDigit, l.dropWhile Char.isDigit)

def digitsToNat (l : List Char) : Nat :=
  l.foldl (fun a c => a * 10 + (c.toNat - 48)) 0

/-- Trailing `[ab]` prerelease tag with its number (or nothing); anything
else fails the StrictVersion pattern. -/
def parsePre : List Char → Option (Option (Bool × Nat))
  | [] => some none
  | c :: r =>
      if c == 'a' || c == 'b' then
        let p := takeDigits r
        if p.1.isEmpty || !p.2.isEmpty then none
        else some (some (c == 'b', digitsToNat p.1))
      else none

/-- `distutils.version.StrictVersion` parsing (pattern
`major.minor[.patch][ab N]`); an unparsable version string makes the
constructor raise ValueError, modelled as `none`. -/
def parseVersion (s : String) : Option SVersion :=
  let p1 := takeDigits s.toList
  if p1.1.isEmpty then none
  else
    match p1.2 with
    | '.' :: r2 =>
        let p2 := takeDigits r2
        if p2.1.isEmpty then none
        else
          match p2.2 with
          | '.' :: r4 =>
              let p3 := takeDigits r4
              if p3.1.isEmpty then none
              else
                (parsePre p3.2).map
                  (fun pre =>
                    ⟨digitsToNat p1.1, digitsToNat p2.1, digitsToNat p3.1, pre⟩)
          | r3 =>
              (parsePre r3).map
                (fun pre => ⟨digitsToNat p1.1, digitsToNat p2.1, 0, pre⟩)
    | _ => none

/-- The migration thresholds of environment.py lines 152, 162, 176. -/
def v040 : SVersion := ⟨0, 4, 0, none⟩

def v050 : SVersion := ⟨0, 5, 0, none⟩

def v203 : SVersion := ⟨2, 0, 0, some (true, 3)⟩

/-- The documented defaults of COMMON_SETTINGS (environment.py lines
33-46). -/
def commonDefaults : List (String × String) :=
  [("color_scheme", "monokai"), ("output", "json"), ("verbosity", "auto")]

/-- Migration step 1 (secret externalization, lines 152-160): for every
profile section whose `key` and `secret` values are truthy (present and
nonempty), move the secret into the keyring and remove it from the plain
store. -/
def step1 (st : Store) (ss : SecretStore) : Store × SecretStore :=
  (profileSections st).foldl
    (fun acc sec =>
      match envGet acc.1 sec "key" none, envGet acc.1 sec "secret" none with
      | some k, some s =>
          if k = "" || s = "" then acc
          else (envSet acc.1 sec "secret" none, setSecret acc.2 sec k s)
      | _, _ => acc)
    (st, ss)

/-- Migration step 2 (retired-family removal, lines 162-174): delete every
profile whose api is `ac1`, deleting its keyring secret non-silently when
it has a truthy key (a missing secret then raises, modelled `none`);
afterwards, when `etc/default` does not name a remaining profile,
re-point it at the first remaining profile or remove it. -/
def step2 (st : Store) (ss : SecretStore) : Option (Store × SecretStore) :=
  ((profileSections st).foldl
      (fun acc sec =>
        acc.bind (fun p =>
          if envGet p.1 sec "api" none = some "ac1" then
            let st2 := removeSection p.1 sec
            match envGet p.1 sec "key" none with
            | some k =>
                if k = "" then some (st2, p.2)
                else (deleteSecretStrict p.2 sec k).map (fun ss2 => (st2, ss2))
            | none => some (st2, p.2)
          else some p))
      (some (st, ss))).map
    (fun p =>
      let ok := match envGet p.1 "etc" "default" none with
        | some d => decide (d ∈ profileSections p.1)
        | none => false
      if ok then p
      else (envSet p.1 "etc" "default" ((profileSections p.1).head?), p.2))

/-- Migration step 3 (default-key rename and defaults injection, lines
176-184): move a stored `etc/default` value to `etc/env`, then set every
COMMON_SETTINGS entry to its documented default — unconditionally. -/
def step3 (st : Store) : Store :=
  let st1 := match envGet st "etc" "default" none with
    | some d => envSet (envSet st "etc" "default" none) "etc" "env" (some d)
    | none => st
  commonDefaults.foldl (fun s p => envSet s "etc" p.1 (some p.2)) st1

/-- The store and keyring after the (conditional) first migration step. -/
def mig1 (pv : SVersion) (st : Store) (ss : SecretStore) : Store × SecretStore :=
  if vlt pv v040 then step1 st ss else (st, ss)

/-- ... after the (conditional) first two migration steps. -/
def mig12 (pv : SVersion) (st : Store) (ss : SecretStore) :
    Option (Store × SecretStore) :=
  if vlt pv v050 then step2 (mig1 pv st ss).1 (mig1 pv st ss).2
  else some (mig1 pv st ss)

/-- The triggered upgrade steps of `check_and_upgrade_config`, followed by
bumping `etc/version` to the running version and saving. -/
def migRun (VERSION : String) (pv : SVersion) (st : Store) (ss : SecretStore) :
    Option (Store × SecretStore × Bool) :=
  match mig12 pv st ss with
  | none => none
  | some p2 =>
      some (envSet (if vlt pv v203 then step3 p2.1 else p2.1)
        "etc" "version" (some VERSION), p2.2, true)

/-- `Environment.check_and_upgrade_config` (lines 148-193), parametrized
by the running version string VERSION.  Modelled from the spec: the
`version.py` module holding VERSION is not among the sources; §4.2 says
the stored version is "updated to the current running version", which is
at least as new as every migration threshold.  A stored version string
that `StrictVersion` cannot parse (or a bare stored `version` key) raises,
modelled `none`.  The returned Bool records whether any upgrade block ran
(`len(upgrades) > 0`), i.e. whether the version was bumped and the store
saved. -/
def migrate (VERSION : String) (st : Store) (ss : SecretStore) :
    Option (Store × SecretStore × Bool) :=
  match envGet st "etc" "version" (some "0.0.1") with
  | none => none
  | some vs =>
      match parseVersion vs with
      | none => none
      | some pv =>
          if vlt pv v040 || vlt pv v050 || vlt pv v203 then
            migRun VERSION pv st ss
          else some (st, ss, false)

instance : DecidableEq (SecretStore × Bool) := instDecidableEqProd

instance : DecidableEq (Store × SecretStore × Bool) := instDecidableEqProd

theorem migRun_sets_version (VERSION : String) (pv : SVersion) (st st1 : Store)
    (ss ss1 : SecretStore) (ch : Bool) (fb : Option String)
    (h : migRun VERSION pv st ss = some (st1, ss1, ch)) :
    envGet st1 "etc" "version" fb = some VERSION ∧ ch = true := by
  unfold migRun at h
  cases hm : mig12 pv st ss with
  | none => rw [hm] at h; exact absurd h (by simp)
  | some p2 =>
      rw [hm] at h
      simp only [Option.some.injEq, Prod.mk.injEq] at h
      obtain ⟨hst, hss, hch⟩ := h
      subst hst
      exact ⟨envGet_envSet_same _ "etc" "version" VERSION fb, hch.symm⟩

/-- C6: migration is idempotent: on any store on which
`check_and_upgrade_config` has already run to completion, a second run
changes no profile, no global setting and no secret, leaves the stored
version unchanged, and runs no upgrade step.  (The hypotheses on VERSION
state, per the spec, that the running version parses and is at least as
new as every migration threshold.) -/
theorem claim6_migration_idempotent (VERSION : String) (vv : SVersion)
    (hpv : parseVersion VERSION = some vv)
    (h1 : vlt vv v040 = false) (h2 : vlt vv v050 = false) (h3 : vlt vv v203 = false)
    (st st1 : Store) (ss ss1 : SecretStore) (ch : Bool)
    (hrun : migrate VERSION st ss = some (st1, ss1, ch)) :
    migrate VERSION st1 ss1 = some (st1, ss1, false) := by
  unfold migrate at hrun
  cases hg : envGet st "etc" "version" (some "0.0.1") with
  | none => simp [hg] at hrun
  | some vs =>
      simp only [hg] at hrun
      cases hp : parseVersion vs with
      | none => simp [hp] at hrun
      | some pv =>
          simp only [hp] at hrun
          by_cases hcond : (vlt pv v040 || vlt pv v050 || vlt pv v203) = true
          · rw [if_pos hcond] at hrun
            obtain ⟨hver, hch⟩ :=
              migRun_sets_version VERSION pv st st1 ss ss1 ch (some "0.0.1") hrun
            simp [migrate, hver, hpv, h1, h2, h3]
          · rw [if_neg hcond] at hrun
            simp only [Option.some.injEq, Prod.mk.injEq] at hrun
            obtain ⟨hst, hss, hch⟩ := hrun
            subst hst; subst hss; subst hch
            simp [migrate, hg, hp, hcond]

/-- A fresh store before its first migration. -/
def stW6 : Store := [("etc", [("version", some "0.0.1")])]

/-- The same store after `check_and_upgrade_config` ran to completion with
running version 2.9.0. -/
def stW6out : Store :=
  [("etc", [("version", some "2.9.0"), ("color_scheme", some "monokai"),
    ("output", some "json"), ("verbosity", some "auto")])]

/-- Witness for C6: a concrete migrated store on which a second run
reports no changes. -/
theorem claim6_witness : migrate "2.9.0" stW6out [] = some (stW6out, [], false) :=
  claim6_migration_idempotent "2.9.0" ⟨2, 9, 0, none⟩ (by decide) (by decide)
    (by decide) (by decide) stW6 stW6out [] [] true (by decide)

/-- C7 (amended): the defaults-injection migration step populates the
global settings record with the documented defaults UNCONDITIONALLY,
overwriting any already-stored value: after the step every common setting
equals its documented default regardless of the prior store. -/
theorem claim7_defaults_overwrite (st : Store) :
    envGet (step3 st) "etc" "color_scheme" none = some "monokai" ∧
    envGet (step3 st) "etc" "output" none = some "json" ∧
    envGet (step3 st) "etc" "verbosity" none = some "auto" := by
  have hstep : step3 st =
      envSet (envSet (envSet
        (match envGet st "etc" "default" none with
         | some d => envSet (envSet st "etc" "default" none) "etc" "env" (some d)
         | none => st)
        "etc" "color_scheme" (some "monokai"))
        "etc" "output" (some "json"))
        "etc" "verbosity" (some "auto") := rfl
  rw [hstep]
  refine ⟨?_, ?_, ?_⟩
  · rw [envGet_envSet_ne _ "etc" "verbosity" "color_scheme" "auto" none (by decide),
        envGet_envSet_ne _ "etc" "output" "color_scheme" "json" none (by decide)]
    exact envGet_envSet_same _ "etc" "color_scheme" "monokai" none
  · rw [envGet_envSet_ne _ "etc" "verbosity" "output" "auto" none (by decide)]
    exact envGet_envSet_same _ "etc" "output" "json" none
  · exact envGet_envSet_same _ "etc" "verbosity" "auto" none

/-- C7 counterexample: a store at version 1.0 with `color_scheme` already
set to `fruity`; the migration (which triggers only the defaults step)
ends with `color_scheme` = `monokai`: the stored value was NOT
preserved. -/
theorem claim7_counterexample :
    (migrate "2.9.0"
        [("etc", [("version", some "1.0"), ("color_scheme", some "fruity")])]
        []).map (fun r => envGet r.1 "etc" "color_scheme" none)
      = some (some "monokai") ∧
    some (some "monokai") ≠ some (some "fruity") := by
  refine ⟨by decide, by decide⟩

end Clack
